import Mathlib

/-!
# Verification of the balatrohno probability/combinatorics core

Shallow embedding of the repository's probability engine:

* `Lib` models `src/lib/pokerHands.ts` and `src/lib/handProbabilities.ts`
  (poker-hand detection and the exact discard/draw enumeration engine).
* `Utils` models `src/utils/discardProbabilities.ts`
  (hypergeometric calculator and the 69-row discard probability table).

JavaScript numbers are modelled as exact rationals (`ℚ`); thrown errors are
modelled with `Except String`; JS `Set`s of tags are modelled as duplicate-free
lists with membership.
-/

namespace Lib

/-- The 13 ranks from `src/lib/types.ts` (`Rank`). -/
inductive Rank where
  | RA | R2 | R3 | R4 | R5 | R6 | R7 | R8 | R9 | R10 | RJ | RQ | RK
deriving DecidableEq, Repr, Fintype

/-- The 4 suits from `src/lib/types.ts` (`Suit`). -/
inductive Suit where
  | hearts | diamonds | clubs | spades
deriving DecidableEq, Repr, Fintype

/-- A card from `src/lib/types.ts` (`Card`): an id string plus rank and suit. -/
structure Card where
  id : String
  rank : Rank
  suit : Suit
deriving DecidableEq, Repr

/-- The 13 poker-hand tags from `src/lib/pokerHands.ts` (`PokerHandType`). -/
inductive PokerHandType where
  | HighCard | Pair | TwoPair | ThreeOfAKind | Straight | Flush | FullHouse
  | FourOfAKind | StraightFlush | RoyalFlush | FiveOfAKind | FlushFive | FlushHouse
deriving DecidableEq, Repr, Fintype

open PokerHandType

/-- `RANK_VALUES` from `src/lib/pokerHands.ts`: Ace high = 14. -/
def RANK_VALUES : Rank → ℕ
  | .RA => 14 | .RK => 13 | .RQ => 12 | .RJ => 11 | .R10 => 10
  | .R9 => 9 | .R8 => 8 | .R7 => 7 | .R6 => 6 | .R5 => 5
  | .R4 => 4 | .R3 => 3 | .R2 => 2

/-- JS `Map` key order: keys in order of first insertion.  Models the
iteration order of the count maps built in `getRankCounts`/`getSuitCounts`. -/
def firstOccs [DecidableEq α] (l : List α) : List α :=
  l.foldl (fun acc a => if a ∈ acc then acc else acc ++ [a]) []

/-- One step of insertion into a descending-sorted list: `a` is placed before
the first element it strictly precedes (`lt`), hence after all elements that
tie with it — exactly the stable ordering of JS `Array.prototype.sort`. -/
def insertBy (lt : α → α → Bool) (a : α) : List α → List α
  | [] => [a]
  | b :: l => if lt a b then a :: b :: l else b :: insertBy lt a l

/-- Stable insertion sort (left fold), modelling JS `Array.prototype.sort`
with a strict comparator `lt` (`comparator(a,b) < 0`). -/
def sortBy (lt : α → α → Bool) (l : List α) : List α :=
  l.foldl (fun acc a => insertBy lt a acc) []

/-- Comparator of `getRankCounts`: count descending, then rank value
descending (`b.count - a.count || RANK_VALUES[b.rank] - RANK_VALUES[a.rank]`). -/
def rankCountLt (a b : Rank × ℕ) : Bool :=
  decide (b.2 < a.2 ∨ (b.2 = a.2 ∧ RANK_VALUES b.1 < RANK_VALUES a.1))

/-- Comparator of `getSuitCounts`: count descending (`b.count - a.count`). -/
def suitCountLt (a b : Suit × ℕ) : Bool :=
  decide (b.2 < a.2)

/-- `getRankCounts` from `src/lib/pokerHands.ts`: per-rank counts (map
insertion order), sorted by count desc then rank value desc. -/
def getRankCounts (cards : List Card) : List (Rank × ℕ) :=
  sortBy rankCountLt
    ((firstOccs (cards.map (·.rank))).map
      (fun r => (r, (cards.filter (fun c => decide (c.rank = r))).length)))

/-- `getSuitCounts` from `src/lib/pokerHands.ts`: per-suit counts (map
insertion order), stably sorted by count desc. -/
def getSuitCounts (cards : List Card) : List (Suit × ℕ) :=
  sortBy suitCountLt
    ((firstOccs (cards.map (·.suit))).map
      (fun s => (s, (cards.filter (fun c => decide (c.suit = s))).length)))

/-- The window scan of `isStraight`: does the descending list of distinct rank
values contain 5 consecutive entries each exactly one apart? -/
def hasRun5 : List ℕ → Bool
  | [] => false
  | a :: rest =>
    (match rest with
      | b :: c :: d :: e :: _ =>
        decide (a = b + 1) && decide (b = c + 1) && decide (c = d + 1)
          && decide (d = e + 1)
      | _ => false) || hasRun5 rest

/-- `isStraight` from `src/lib/pokerHands.ts`. -/
def isStraight (cards : List Card) : Bool :=
  if cards.length < 5 then false
  else
    let uniqueRanks := firstOccs (cards.map (·.rank))
    if uniqueRanks.length < 5 then false
    else
      let values := sortBy (fun a b => decide (b < a)) (uniqueRanks.map RANK_VALUES)
      hasRun5 values ||
        (values.contains 14 && values.contains 5 && values.contains 4 &&
          values.contains 3 && values.contains 2)

/-- `isFlush` from `src/lib/pokerHands.ts`: some suit count is ≥ 5. -/
def isFlush (cards : List Card) : Bool :=
  if cards.length < 5 then false
  else
    match getSuitCounts cards with
    | [] => false
    | sc :: _ => decide (5 ≤ sc.2)

/-- The ranks `{10, J, Q, K, A}` (`royalRanks` in `isRoyalFlush`). -/
def royalRanks : List Rank := [.R10, .RJ, .RQ, .RK, .RA]

/-- `isRoyalFlush` from `src/lib/pokerHands.ts`: straight flush whose
top-count suit has exactly 5 cards with royal ranks. -/
def isRoyalFlush (cards : List Card) : Bool :=
  if ¬(isStraight cards = true ∧ isFlush cards = true) then false
  else
    match getSuitCounts cards with
    | [] => false
    | (flushSuit, _) :: _ =>
      decide ((cards.filter
        (fun c => decide (c.suit = flushSuit) && c.rank ∈ royalRanks)).length = 5)

/-- `detectPokerHands` from `src/lib/pokerHands.ts`.  The returned JS `Set` is
modelled as a list (each tag is added by exactly one branch, so the list is
duplicate-free); only membership is ever consumed. -/
def detectPokerHands (cards : List Card) : List PokerHandType :=
  if cards.length = 0 then []
  else
    match getRankCounts cards with
    | [] => []
    | r0 :: rrest =>
      let hasStraight := isStraight cards
      let hasFlush := isFlush cards
      let fullHouse : Bool :=
        decide (3 ≤ r0.2) && (match rrest with
          | r1 :: _ => decide (2 ≤ r1.2)
          | [] => false)
      (if 5 ≤ r0.2 then [FiveOfAKind] else []) ++
      (if 4 ≤ r0.2 then [FourOfAKind] else []) ++
      (if fullHouse then [FullHouse] else []) ++
      (if 3 ≤ r0.2 then [ThreeOfAKind] else []) ++
      (if (match rrest with
            | r1 :: _ => decide (2 ≤ r0.2) && decide (2 ≤ r1.2)
            | [] => false) then [TwoPair] else []) ++
      (if 2 ≤ r0.2 then [Pair] else []) ++
      (if isRoyalFlush cards then [RoyalFlush] else []) ++
      (if hasStraight && hasFlush then [StraightFlush] else []) ++
      (if hasFlush then [Flush] else []) ++
      (if hasStraight then [Straight] else []) ++
      (if 5 ≤ r0.2 && hasFlush then
        (match getSuitCounts (cards.filter (fun c => decide (c.rank = r0.1))) with
          | [] => []
          | sc :: _ => if 5 ≤ sc.2 then [FlushFive] else [])
       else []) ++
      (if fullHouse && hasFlush then
        (match rrest with
          | r1 :: _ =>
            if isFlush (cards.filter
                (fun c => decide (c.rank = r0.1) || decide (c.rank = r1.1))) then
              [FlushHouse]
            else []
          | [] => [])
       else []) ++
      [HighCard]

/-- `ALL_POKER_HANDS` from `src/lib/pokerHands.ts`. -/
def ALL_POKER_HANDS : List PokerHandType :=
  [RoyalFlush, StraightFlush, FiveOfAKind, FlushFive, FourOfAKind, FlushHouse,
   FullHouse, Flush, Straight, ThreeOfAKind, TwoPair, Pair, HighCard]

/-- A `HandProbabilities` record from `src/lib/handProbabilities.ts`, as a
total map on the 13 tags (the source populates every key of
`ALL_POKER_HANDS`). -/
def HandProbabilities := PokerHandType → ℚ

/-- `getCurrentHandProbabilities` from `src/lib/handProbabilities.ts`:
1.0 for each detected tag, 0.0 otherwise. -/
def getCurrentHandProbabilities (hand : List Card) : HandProbabilities :=
  fun t => if t ∈ detectPokerHands hand then 1 else 0

/-- The recursion of `generateCombinations` inside `enumerateCombinations`
(`src/lib/handProbabilities.ts`): all ways of drawing `d` cards from the
deck suffix, in source order — first the draws taking `deck[start]`, then
the draws skipping it. -/
def combos : List Card → ℕ → List (List Card)
  | _, 0 => [[]]
  | [], _ + 1 => []
  | c :: rest, d + 1 =>
    (combos rest d).map (fun s => c :: s) ++ combos rest (d + 1)

/-- `enumerateCombinations` from `src/lib/handProbabilities.ts`: the returned
`totalCombinations` together with the final `handCounts` accumulator (how many
enumerated draws produce each tag in `keptCards ++ drawn`). -/
def enumerateCombinations (keptCards : List Card) (drawCount : ℕ)
    (deck : List Card) : ℕ × (PokerHandType → ℕ) :=
  let cs := combos deck drawCount
  (cs.length,
   fun t => cs.countP (fun s => decide (t ∈ detectPokerHands (keptCards ++ s))))

/-- `calculateDiscardProbabilities` from `src/lib/handProbabilities.ts`:
fall back to the current-hand answer when over-drawing, throw beyond the
5-discard cap, otherwise divide exact counts by the combination total. -/
def calculateDiscardProbabilities (keptCards : List Card) (drawCount : ℕ)
    (deck : List Card) : Except String HandProbabilities :=
  if deck.length < drawCount then .ok (getCurrentHandProbabilities keptCards)
  else if 5 < drawCount then .error "Cannot discard more than 5 cards in Balatro"
  else
    let r := enumerateCombinations keptCards drawCount deck
    .ok fun t => (r.2 t : ℚ) / (r.1 : ℚ)

/-- `calculateHandProbabilities` from `src/lib/handProbabilities.ts`, in the
spec's `computeHandProbabilities(keptCards, discardCount, availableDeck)`
signature (the source first splits its hand into `keptCards` and
`discardCount = |selection|`; from there the control flow is exactly this). -/
def computeHandProbabilities (keptCards : List Card) (discardCount : ℕ)
    (deck : List Card) : Except String HandProbabilities :=
  if discardCount = 0 then .ok (getCurrentHandProbabilities keptCards)
  else calculateDiscardProbabilities keptCards discardCount deck

end Lib

namespace Utils

/-- The multiplicative accumulation loop of `binomialCoefficient`
(`src/utils/discardProbabilities.ts`): after `j` iterations the accumulator is
`∏ i < j, (n - i) / (i + 1)`. -/
def binomLoop (n : ℤ) : ℕ → ℚ
  | 0 => 1
  | j + 1 => binomLoop n j * ((n : ℚ) - (j : ℚ)) / ((j : ℚ) + 1)

/-- `binomialCoefficient` from `src/utils/discardProbabilities.ts`. -/
def binomialCoefficient (n k : ℤ) : ℚ :=
  if k < 0 ∨ n < k then 0
  else if k = 0 ∨ k = n then 1
  else binomLoop n (min k (n - k)).toNat

/-- `hypergeomPmf` from `src/utils/discardProbabilities.ts`:
`C(n,k)·C(M−n,N−k)/C(M,N)`, with an explicit 0 when the denominator is 0. -/
def hypergeomPmf (k M n N : ℤ) : ℚ :=
  let numerator := binomialCoefficient n k * binomialCoefficient (M - n) (N - k)
  let denominator := binomialCoefficient M N
  if denominator = 0 then 0 else numerator / denominator

/-- `hypergeomCdf` from `src/utils/discardProbabilities.ts`: sum of the PMF
for `i = 0 .. ⌊k⌋` (an empty sum when `k < 0`). -/
def hypergeomCdf (k M n N : ℤ) : ℚ :=
  if k < 0 then 0
  else ∑ i ∈ Finset.range (k.toNat + 1), hypergeomPmf (i : ℤ) M n N

/-- `calculateProbability` from `src/utils/discardProbabilities.ts` (the
spec's `computeMatchProbability`): `P(X ≥ minMatches)` by complement. -/
def calculateProbability (deckSize matchingCards drawCount minMatches : ℤ) : ℚ :=
  if matchingCards < minMatches then 0
  else if deckSize - matchingCards < drawCount - minMatches + 1 then 1
  else if minMatches = 1 then 1 - hypergeomPmf 0 deckSize matchingCards drawCount
  else 1 - hypergeomCdf (minMatches - 1) deckSize matchingCards drawCount

/-- `parseRank` from `src/utils/discardProbabilities.ts`: `"10"` for ids
starting with `"10"`, otherwise the first character. -/
def parseRank (cardId : String) : String :=
  if cardId.startsWith "10" then "10" else cardId.take 1

/-- `parseSuit` from `src/utils/discardProbabilities.ts`: map the last
character through `suitMap` (`none` models JS `undefined`). -/
def parseSuit (cardId : String) : Option String :=
  if cardId.takeRight 1 = "H" then some "hearts"
  else if cardId.takeRight 1 = "D" then some "diamonds"
  else if cardId.takeRight 1 = "C" then some "clubs"
  else if cardId.takeRight 1 = "S" then some "spades"
  else none

/-- `countMatchingCards` from `src/utils/discardProbabilities.ts`; the
stringly-typed `'any'` sentinel is kept as in the source. -/
def countMatchingCards (deck : List String) (rank suit : String) : ℕ :=
  (deck.filter (fun cardId =>
    (decide (rank = "any") || decide (parseRank cardId = rank)) &&
    (decide (suit = "any") || decide (parseSuit cardId = some suit)))).length

/-- `getCardTypeLabel` from `src/utils/discardProbabilities.ts`. -/
def getCardTypeLabel (rank suit : String) : String :=
  if rank ≠ "any" ∧ suit ≠ "any" then rank ++ (suit.take 1).toUpper
  else if rank ≠ "any" then
    "Any " ++ (if rank = "A" then "Ace" else if rank = "K" then "King"
      else if rank = "Q" then "Queen" else if rank = "J" then "Jack" else rank)
  else if suit ≠ "any" then "Any " ++ ((suit.take 1).toUpper ++ suit.drop 1)
  else "Unknown"

/-- `TableRow` from `src/utils/discardProbabilities.ts`. -/
structure TableRow where
  cardType : String
  category : String
  probabilities : List ℚ
deriving DecidableEq, Repr

/-- The `suits` array of `calculateDiscardProbabilities` (table generator). -/
def suitsList : List String := ["hearts", "diamonds", "clubs", "spades"]

/-- The `ranks` array of `calculateDiscardProbabilities` (table generator). -/
def ranksList : List String :=
  ["A", "2", "3", "4", "5", "6", "7", "8", "9", "10", "J", "Q", "K"]

/-- `calculateDiscardProbabilities` from `src/utils/discardProbabilities.ts`
(the spec's `buildDiscardTable`): 4 suit rows, 13 rank rows, then 52
specific-card rows grouped by suit then rank. -/
def calculateDiscardProbabilities (remainingDeck : List String)
    (drawCounts : List ℤ) : List TableRow :=
  if remainingDeck.length = 0 then []
  else
    (suitsList.map fun suit =>
      { cardType := getCardTypeLabel "any" suit, category := "suit"
        probabilities := drawCounts.map fun drawCount =>
          calculateProbability (remainingDeck.length : ℤ)
            (countMatchingCards remainingDeck "any" suit : ℤ) drawCount 1 }) ++
    (ranksList.map fun rank =>
      { cardType := getCardTypeLabel rank "any", category := "rank"
        probabilities := drawCounts.map fun drawCount =>
          calculateProbability (remainingDeck.length : ℤ)
            (countMatchingCards remainingDeck rank "any" : ℤ) drawCount 1 }) ++
    (suitsList.map (fun suit => ranksList.map fun rank =>
      { cardType := getCardTypeLabel rank suit, category := "specific"
        probabilities := drawCounts.map fun drawCount =>
          calculateProbability (remainingDeck.length : ℤ)
            (countMatchingCards remainingDeck rank suit : ℤ) drawCount 1 })).flatten

end Utils

/-! ## Bridge lemmas: the iterative binomial loop computes `Nat.choose` -/

namespace Utils

theorem binomLoop_eq_choose (n : ℕ) :
    ∀ j : ℕ, j ≤ n → binomLoop (n : ℤ) j = (n.choose j : ℚ) := by
  intro j
  induction j with
  | zero => intro _; simp [binomLoop]
  | succ j ih =>
    intro hj
    have hj' : j ≤ n := Nat.le_of_succ_le hj
    have key := Nat.choose_succ_right_eq n j
    have hcast : ((n - j : ℕ) : ℚ) = (n : ℚ) - (j : ℚ) := by
      push_cast [Nat.cast_sub hj']
      ring
    have hne : (j : ℚ) + 1 ≠ 0 := by positivity
    rw [binomLoop, ih hj', div_eq_iff hne]
    push_cast
    rw [← hcast]
    exact_mod_cast key.symm

theorem binomialCoefficient_natCast (a : ℕ) (b : ℤ) :
    binomialCoefficient (a : ℤ) b =
      if 0 ≤ b then (a.choose b.toNat : ℚ) else 0 := by
  rcases lt_or_ge b 0 with hb | hb
  · rw [binomialCoefficient, if_pos (Or.inl hb), if_neg (not_le.mpr hb)]
  · rw [if_pos hb]
    obtain ⟨k, rfl⟩ : ∃ k : ℕ, b = (k : ℤ) := ⟨b.toNat, (Int.toNat_of_nonneg hb).symm⟩
    rw [Int.toNat_natCast]
    rcases lt_or_ge a k with hak | hak
    · rw [binomialCoefficient, if_pos (Or.inr (by exact_mod_cast hak)),
        Nat.choose_eq_zero_of_lt hak]
      simp
    · have hnotlt : ¬((k : ℤ) < 0 ∨ (a : ℤ) < (k : ℤ)) := by
        push_neg
        exact ⟨by positivity, by exact_mod_cast hak⟩
      rw [binomialCoefficient, if_neg hnotlt]
      by_cases hk0 : (k : ℤ) = 0 ∨ (k : ℤ) = (a : ℤ)
      · rw [if_pos hk0]
        rcases hk0 with h | h
        · have : k = 0 := by exact_mod_cast h
          simp [this]
        · have : k = a := by exact_mod_cast h
          simp [this]
      · rw [if_neg hk0]
        have hk0' : k ≠ 0 ∧ k ≠ a := by
          constructor <;> (intro h; exact hk0 (by omega))
        have hmin : (min (k : ℤ) ((a : ℤ) - (k : ℤ))).toNat = min k (a - k) := by
          omega
        rw [hmin, binomLoop_eq_choose a _ (by omega)]
        rcases le_total k (a - k) with hle | hle
        · rw [min_eq_left hle]
        · rw [min_eq_right hle, Nat.choose_symm hak]

theorem choose_cast_ne_zero {N n : ℕ} (hn : n ≤ N) : ((N.choose n : ℕ) : ℚ) ≠ 0 := by
  exact_mod_cast (Nat.choose_pos hn).ne'

theorem hypergeomPmf_natCast (N K n : ℕ) (hK : K ≤ N) (hn : n ≤ N) (i : ℕ) :
    hypergeomPmf (i : ℤ) (N : ℤ) (K : ℤ) (n : ℤ) =
      if i ≤ n then
        ((K.choose i : ℚ) * ((N - K).choose (n - i) : ℚ)) / ((N.choose n : ℕ) : ℚ)
      else 0 := by
  have hden : binomialCoefficient (N : ℤ) (n : ℤ) = ((N.choose n : ℕ) : ℚ) := by
    rw [binomialCoefficient_natCast, if_pos (by positivity), Int.toNat_natCast]
  have hKi : binomialCoefficient (K : ℤ) (i : ℤ) = ((K.choose i : ℕ) : ℚ) := by
    rw [binomialCoefficient_natCast, if_pos (by positivity), Int.toNat_natCast]
  have hsub : (N : ℤ) - (K : ℤ) = ((N - K : ℕ) : ℤ) := by omega
  rw [hypergeomPmf, hden, if_neg (choose_cast_ne_zero hn), hKi, hsub]
  rcases le_or_lt i n with hin | hin
  · have h0 : (0 : ℤ) ≤ (n : ℤ) - (i : ℤ) := by omega
    have htn : ((n : ℤ) - (i : ℤ)).toNat = n - i := by omega
    rw [binomialCoefficient_natCast, if_pos h0, htn, if_pos hin]
  · have h0 : ¬(0 : ℤ) ≤ (n : ℤ) - (i : ℤ) := by omega
    rw [binomialCoefficient_natCast, if_neg h0, if_neg (not_le.mpr hin)]
    simp

theorem hypergeomCdf_pred_eq_sum (M n N : ℤ) (k : ℕ) :
    hypergeomCdf ((k : ℤ) - 1) M n N =
      ∑ i ∈ Finset.range k, hypergeomPmf (i : ℤ) M n N := by
  cases k with
  | zero => simp [hypergeomCdf]
  | succ k =>
    have hlt : ¬((k + 1 : ℕ) : ℤ) - 1 < 0 := by omega
    have ht : (((k + 1 : ℕ) : ℤ) - 1).toNat = k := by omega
    rw [hypergeomCdf, if_neg hlt, ht]

theorem vandermonde_cast (N K n : ℕ) (hK : K ≤ N) :
    ∑ i ∈ Finset.range (n + 1), ((K.choose i : ℚ) * ((N - K).choose (n - i) : ℚ)) =
      ((N.choose n : ℕ) : ℚ) := by
  have hKN : K + (N - K) = N := by omega
  have h : N.choose n = ∑ i ∈ Finset.range (n + 1), K.choose i * (N - K).choose (n - i) := by
    have h0 := Nat.add_choose_eq K (N - K) n
    rw [Finset.Nat.sum_antidiagonal_eq_sum_range_succ_mk] at h0
    simpa [hKN] using h0
  rw [h]
  push_cast
  rfl

theorem complement_eq_tail (N K n k : ℕ) (hK : K ≤ N) (hn : n ≤ N) :
    1 - ∑ i ∈ Finset.range k, hypergeomPmf (i : ℤ) (N : ℤ) (K : ℤ) (n : ℤ) =
      (∑ i ∈ Finset.Icc k n, ((K.choose i : ℚ) * ((N - K).choose (n - i) : ℚ)))
        / ((N.choose n : ℕ) : ℚ) := by
  have hC := choose_cast_ne_zero hn
  have hpm : ∀ i ∈ Finset.range k,
      hypergeomPmf (i : ℤ) (N : ℤ) (K : ℤ) (n : ℤ) =
        (if i ≤ n then (K.choose i : ℚ) * ((N - K).choose (n - i) : ℚ) else 0)
          / ((N.choose n : ℕ) : ℚ) := by
    intro i _
    rw [hypergeomPmf_natCast N K n hK hn i]
    split_ifs with h
    · rfl
    · rw [zero_div]
  rw [Finset.sum_congr rfl hpm, ← Finset.sum_div]
  have key :
      (∑ i ∈ Finset.range k,
        (if i ≤ n then (K.choose i : ℚ) * ((N - K).choose (n - i) : ℚ) else 0)) +
      (∑ i ∈ Finset.Icc k n, ((K.choose i : ℚ) * ((N - K).choose (n - i) : ℚ))) =
        ((N.choose n : ℕ) : ℚ) := by
    rcases le_or_lt k (n + 1) with hk | hk
    · have hP : (∑ i ∈ Finset.range k,
          (if i ≤ n then (K.choose i : ℚ) * ((N - K).choose (n - i) : ℚ) else 0)) =
          ∑ i ∈ Finset.range k, (K.choose i : ℚ) * ((N - K).choose (n - i) : ℚ) := by
        refine Finset.sum_congr rfl fun i hi => ?_
        rw [Finset.mem_range] at hi
        rw [if_pos (by omega)]
      rw [hP, ← vandermonde_cast N K n hK, ← Nat.Ico_succ_right]
      exact Finset.sum_range_add_sum_Ico _ hk
    · have hT : (∑ i ∈ Finset.Icc k n,
          ((K.choose i : ℚ) * ((N - K).choose (n - i) : ℚ))) = 0 := by
        refine Finset.sum_eq_zero fun i hi => ?_
        rw [Finset.mem_Icc] at hi
        exact absurd hi (by omega)
      have hsubset : Finset.range (n + 1) ⊆ Finset.range k :=
        Finset.range_subset.mpr (by omega)
      have hout : ∀ x ∈ Finset.range k, x ∉ Finset.range (n + 1) →
          (if x ≤ n then (K.choose x : ℚ) * ((N - K).choose (n - x) : ℚ) else 0) = 0 := by
        intro x _ hx
        rw [Finset.mem_range] at hx
        rw [if_neg (by omega)]
      have hP : (∑ i ∈ Finset.range k,
          (if i ≤ n then (K.choose i : ℚ) * ((N - K).choose (n - i) : ℚ) else 0)) =
          ∑ i ∈ Finset.range (n + 1), (K.choose i : ℚ) * ((N - K).choose (n - i) : ℚ) := by
        rw [← Finset.sum_subset hsubset hout]
        refine Finset.sum_congr rfl fun i hi => ?_
        rw [Finset.mem_range] at hi
        rw [if_pos (by omega)]
      rw [hP, hT, add_zero, vandermonde_cast N K n hK]
  have hsub :
      (∑ i ∈ Finset.Icc k n, ((K.choose i : ℚ) * ((N - K).choose (n - i) : ℚ))) =
        ((N.choose n : ℕ) : ℚ) -
          ∑ i ∈ Finset.range k,
            (if i ≤ n then (K.choose i : ℚ) * ((N - K).choose (n - i) : ℚ) else 0) := by
    linarith
  rw [hsub, sub_div, div_self hC]

theorem calcProb_tail (N K n k : ℕ) (hK : K ≤ N) (hn : n ≤ N) :
    calculateProbability (N : ℤ) (K : ℤ) (n : ℤ) (k : ℤ) =
      (∑ i ∈ Finset.Icc k n, ((K.choose i : ℚ) * ((N - K).choose (n - i) : ℚ)))
        / ((N.choose n : ℕ) : ℚ) := by
  have hC := choose_cast_ne_zero hn
  rw [calculateProbability]
  split_ifs with h1 h2 h3
  · -- impossible branch: K < k
    have hKk : K < k := by exact_mod_cast h1
    symm
    rw [Finset.sum_eq_zero, zero_div]
    intro i hi
    have hKi : K < i := lt_of_lt_of_le hKk (Finset.mem_Icc.mp hi).1
    rw [Nat.choose_eq_zero_of_lt hKi]
    simp
  · -- guaranteed branch: too few non-matching cards
    have hsum : (∑ i ∈ Finset.Icc k n,
        ((K.choose i : ℚ) * ((N - K).choose (n - i) : ℚ))) =
          ((N.choose n : ℕ) : ℚ) := by
      have hzero : ∀ i ∈ Finset.range k,
          (K.choose i : ℚ) * ((N - K).choose (n - i) : ℚ) = 0 := by
        intro i hi
        rw [Finset.mem_range] at hi
        have hlt : (N - K : ℕ) < n - i := by omega
        rw [Nat.choose_eq_zero_of_lt hlt]
        simp
      have hk : k ≤ n + 1 := by omega
      have hsplit := Finset.sum_range_add_sum_Ico
        (fun i => (K.choose i : ℚ) * ((N - K).choose (n - i) : ℚ)) hk
      rw [Finset.sum_eq_zero hzero, zero_add, Nat.Ico_succ_right] at hsplit
      rw [hsplit, vandermonde_cast N K n hK]
    rw [hsum, div_self hC]
  · -- complement via single PMF value (minMatches = 1)
    have hk1 : k = 1 := by exact_mod_cast h3
    subst hk1
    have h := complement_eq_tail N K n 1 hK hn
    rw [Finset.sum_range_one, Nat.cast_zero] at h
    exact h
  · -- complement via CDF
    rw [hypergeomCdf_pred_eq_sum]
    exact complement_eq_tail N K n k hK hn

end Utils

/-- C2: on all integer inputs with `0 ≤ K ≤ N` and `0 ≤ n ≤ N` (and `k ≥ 0`),
`calculateProbability` — read over exact rationals — equals the hypergeometric
tail sum `∑_{i=k}^{n} C(K,i)·C(N−K,n−i) / C(N,n)`; its early-return branches
agree with that reference value, and for `minMatches = 0` the result is
exactly 1. -/
theorem calculateProbability_eq_hypergeom_tail (N K n k : ℕ) (hK : K ≤ N) (hn : n ≤ N) :
    Utils.calculateProbability (N : ℤ) (K : ℤ) (n : ℤ) (k : ℤ) =
      (∑ i ∈ Finset.Icc k n, ((K.choose i : ℚ) * ((N - K).choose (n - i) : ℚ)))
        / ((N.choose n : ℕ) : ℚ) ∧
    Utils.calculateProbability (N : ℤ) (K : ℤ) (n : ℤ) (0 : ℤ) = 1 := by
  refine ⟨Utils.calcProb_tail N K n k hK hn, ?_⟩
  have h := Utils.calcProb_tail N K n 0 hK hn
  rw [Nat.cast_zero] at h
  rw [h]
  have : Finset.Icc 0 n = Finset.range (n + 1) := by
    rw [← Nat.Ico_succ_right, Nat.Ico_zero_eq_range]
  rw [this, Utils.vandermonde_cast N K n hK, div_self (Utils.choose_cast_ne_zero hn)]

/-- C2 witness: the theorem instantiated at `N = 52`, `K = 4`, `n = 5`,
`k = 1` (the spec's own worked example). -/
theorem calculateProbability_eq_hypergeom_tail_witness :
    Utils.calculateProbability 52 4 5 1 =
      (∑ i ∈ Finset.Icc 1 5, ((Nat.choose 4 i : ℚ) * (Nat.choose 48 (5 - i) : ℚ)))
        / ((Nat.choose 52 5 : ℕ) : ℚ) ∧
    Utils.calculateProbability 52 4 5 0 = 1 := by
  have h := calculateProbability_eq_hypergeom_tail 52 4 5 1 (by norm_num) (by norm_num)
  exact_mod_cast h

/-! ## Checked evaluation: every division in the calculator has a nonzero
denominator.  `safeDiv` fails where JS division would hit a zero denominator;
the checked functions mirror the source expression for expression and fail as
soon as any inner division would. -/

namespace Utils

/-- Division that reports a zero denominator instead of computing. -/
def safeDiv (x y : ℚ) : Option ℚ := if y = 0 then none else some (x / y)

/-- `binomLoop` with every division checked. -/
def binomLoopChecked (n : ℤ) : ℕ → Option ℚ
  | 0 => some 1
  | j + 1 =>
    match binomLoopChecked n j with
    | some prev => safeDiv (prev * ((n : ℚ) - (j : ℚ))) ((j : ℚ) + 1)
    | none => none

/-- `binomialCoefficient` with every division checked. -/
def binomialCoefficientChecked (n k : ℤ) : Option ℚ :=
  if k < 0 ∨ n < k then some 0
  else if k = 0 ∨ k = n then some 1
  else binomLoopChecked n (min k (n - k)).toNat

/-- `hypergeomPmf` with every division checked (the source's own
`denominator === 0` guard precedes its division). -/
def hypergeomPmfChecked (k M n N : ℤ) : Option ℚ :=
  match binomialCoefficientChecked n k,
    binomialCoefficientChecked (M - n) (N - k),
    binomialCoefficientChecked M N with
  | some a, some b, some den => if den = 0 then some 0 else safeDiv (a * b) den
  | _, _, _ => none

/-- `hypergeomCdf` with every division checked. -/
def hypergeomCdfChecked (k M n N : ℤ) : Option ℚ :=
  if k < 0 then some 0
  else (List.range (k.toNat + 1)).foldlM
    (fun (acc : ℚ) (i : ℕ) =>
      (hypergeomPmfChecked (i : ℤ) M n N).map (fun p => acc + p)) 0

/-- `calculateProbability` with every division checked. -/
def calculateProbabilityChecked (deckSize matchingCards drawCount minMatches : ℤ) :
    Option ℚ :=
  if matchingCards < minMatches then some 0
  else if deckSize - matchingCards < drawCount - minMatches + 1 then some 1
  else if minMatches = 1 then
    (hypergeomPmfChecked 0 deckSize matchingCards drawCount).map (fun p => 1 - p)
  else
    (hypergeomCdfChecked (minMatches - 1) deckSize matchingCards drawCount).map
      (fun c => 1 - c)

theorem binomLoopChecked_eq (n : ℤ) :
    ∀ j : ℕ, binomLoopChecked n j = some (binomLoop n j) := by
  intro j
  induction j with
  | zero => rfl
  | succ j ih =>
    have hne : ((j : ℚ) + 1) ≠ 0 := by positivity
    simp only [binomLoopChecked, ih, safeDiv, binomLoop]
    rw [if_neg hne]

theorem binomialCoefficientChecked_eq (n k : ℤ) :
    binomialCoefficientChecked n k = some (binomialCoefficient n k) := by
  rw [binomialCoefficientChecked, binomialCoefficient]
  split_ifs <;> simp [binomLoopChecked_eq]

theorem hypergeomPmfChecked_eq (k M n N : ℤ) :
    hypergeomPmfChecked k M n N = some (hypergeomPmf k M n N) := by
  simp only [hypergeomPmfChecked, binomialCoefficientChecked_eq, hypergeomPmf]
  split_ifs with h
  · rfl
  · rw [safeDiv, if_neg h]

theorem foldlM_map_some (f : ℕ → ℚ) (F : ℕ → Option ℚ)
    (hF : ∀ i, F i = some (f i)) (l : List ℕ) :
    ∀ acc : ℚ, l.foldlM (fun (acc : ℚ) (i : ℕ) => (F i).map (fun p => acc + p)) acc
      = some (l.foldl (fun acc i => acc + f i) acc) := by
  induction l with
  | nil => intro acc; rfl
  | cons a l ih =>
    intro acc
    rw [List.foldlM_cons, List.foldl_cons, hF]
    simpa using ih (acc + f a)

theorem foldl_add_eq_sum (f : ℕ → ℚ) (m : ℕ) :
    (List.range m).foldl (fun acc i => acc + f i) 0 = ∑ i ∈ Finset.range m, f i := by
  induction m with
  | zero => simp
  | succ m ih =>
    rw [List.range_succ, List.foldl_append, ih, List.foldl_cons, List.foldl_nil,
      Finset.sum_range_succ]

theorem hypergeomCdfChecked_eq (k M n N : ℤ) :
    hypergeomCdfChecked k M n N = some (hypergeomCdf k M n N) := by
  rw [hypergeomCdfChecked, hypergeomCdf]
  split_ifs with h
  · rfl
  · rw [foldlM_map_some (fun i : ℕ => hypergeomPmf (i : ℤ) M n N)
      (fun i : ℕ => hypergeomPmfChecked (i : ℤ) M n N)
      (fun i => hypergeomPmfChecked_eq (i : ℤ) M n N) (List.range (k.toNat + 1)) 0,
      foldl_add_eq_sum]

theorem calculateProbabilityChecked_eq (N K n k : ℤ) :
    calculateProbabilityChecked N K n k = some (calculateProbability N K n k) := by
  rw [calculateProbabilityChecked, calculateProbability]
  split_ifs <;>
    simp [hypergeomPmfChecked_eq, hypergeomCdfChecked_eq]

end Utils

/-- C10: `calculateProbability` is total on all integer inputs, even
precondition-violating ones: `binomialCoefficient` returns 0 for `k < 0` or
`k > n` and (past that guard) 1 for `k = 0` or `k = n`; `hypergeomPmf`
returns 0 whenever the denominator `C(M,N)` is 0; and no call path of
`calculateProbability` ever divides by zero (the checked evaluator, which
fails on any zero-denominator division, always succeeds with the same
value). -/
theorem calculateProbability_total_no_division_by_zero :
    (∀ n k : ℤ, (k < 0 ∨ n < k) → Utils.binomialCoefficient n k = 0) ∧
    (∀ n k : ℤ, ¬(k < 0 ∨ n < k) → (k = 0 ∨ k = n) →
      Utils.binomialCoefficient n k = 1) ∧
    (∀ k M n N : ℤ, Utils.binomialCoefficient M N = 0 →
      Utils.hypergeomPmf k M n N = 0) ∧
    (∀ N K n k : ℤ, Utils.calculateProbabilityChecked N K n k =
      some (Utils.calculateProbability N K n k)) := by
  refine ⟨?_, ?_, ?_, Utils.calculateProbabilityChecked_eq⟩
  · intro n k h
    rw [Utils.binomialCoefficient, if_pos h]
  · intro n k h h0
    rw [Utils.binomialCoefficient, if_neg h, if_pos h0]
  · intro k M n N h
    simp only [Utils.hypergeomPmf]
    rw [if_pos h]

/-- C10 witness: the branch equations and the checked evaluation at concrete
inputs (including precondition-violating ones). -/
theorem calculateProbability_total_no_division_by_zero_witness :
    Utils.binomialCoefficient 5 (-1) = 0 ∧
    Utils.binomialCoefficient 5 7 = 0 ∧
    Utils.binomialCoefficient 5 0 = 1 ∧
    Utils.binomialCoefficient 5 5 = 1 ∧
    Utils.hypergeomPmf 3 0 (-2) 5 = 0 ∧
    Utils.calculateProbabilityChecked 52 4 5 1 =
      some (Utils.calculateProbability 52 4 5 1) := by
  refine ⟨calculateProbability_total_no_division_by_zero.1 5 (-1) (Or.inl (by norm_num)),
    calculateProbability_total_no_division_by_zero.1 5 7 (Or.inr (by norm_num)),
    calculateProbability_total_no_division_by_zero.2.1 5 0 (by norm_num) (Or.inl rfl),
    calculateProbability_total_no_division_by_zero.2.1 5 5 (by norm_num) (Or.inr rfl),
    calculateProbability_total_no_division_by_zero.2.2.1 3 0 (-2) 5 (by decide),
    calculateProbability_total_no_division_by_zero.2.2.2 52 4 5 1⟩

/-! ## Structure of the detector: head accessors and a membership
characterization. -/

namespace Lib

/-- Count of the most frequent rank (`rankCounts[0].count`; 0 for an empty
hand). -/
def topRankCount (cards : List Card) : ℕ :=
  ((getRankCounts cards).headD (Rank.RA, 0)).2

/-- Most frequent rank, ties broken toward higher rank value
(`rankCounts[0].rank`). -/
def topRank (cards : List Card) : Rank :=
  ((getRankCounts cards).headD (Rank.RA, 0)).1

/-- Count of the second entry of the rank-count table (`rankCounts[1].count`;
0 when there is no second rank). -/
def secondRankCount (cards : List Card) : ℕ :=
  match getRankCounts cards with
  | _ :: r1 :: _ => r1.2
  | _ => 0

/-- Rank of the second entry of the rank-count table (`rankCounts[1].rank`). -/
def secondRank (cards : List Card) : Rank :=
  match getRankCounts cards with
  | _ :: r1 :: _ => r1.1
  | _ => Rank.RA

/-- Count of the top entry of the suit-count table (`suitCounts[0].count`). -/
def topSuitCount (cards : List Card) : ℕ :=
  ((getSuitCounts cards).headD (Suit.hearts, 0)).2

/-- Suit of the top entry of the suit-count table (`suitCounts[0].suit`, the
code's "flush suit"). -/
def flushSuitD (cards : List Card) : Suit :=
  ((getSuitCounts cards).headD (Suit.hearts, 0)).1

theorem insertBy_length (lt : α → α → Bool) (a : α) :
    ∀ l : List α, (insertBy lt a l).length = l.length + 1 := by
  intro l
  induction l with
  | nil => rfl
  | cons b l ih =>
    rw [insertBy]
    split_ifs <;> simp [ih]

theorem sortBy_length (lt : α → α → Bool) (l : List α) :
    (sortBy lt l).length = l.length := by
  suffices h : ∀ (l : List α) (acc : List α),
      (l.foldl (fun acc a => insertBy lt a acc) acc).length = acc.length + l.length by
    simpa [sortBy] using h l []
  intro l
  induction l with
  | nil => intro acc; simp
  | cons a l ih =>
    intro acc
    rw [List.foldl_cons, ih, insertBy_length, List.length_cons]
    omega

theorem firstOccs_length_pos [DecidableEq α] {l : List α} (h : l ≠ []) :
    0 < (firstOccs l).length := by
  have hmono : ∀ (l acc : List α), acc.length ≤
      (l.foldl (fun acc a => if a ∈ acc then acc else acc ++ [a]) acc).length := by
    intro l
    induction l with
    | nil => intro acc; exact le_refl _
    | cons a l ih =>
      intro acc
      rw [List.foldl_cons]
      refine le_trans ?_ (ih _)
      split_ifs <;> simp
  cases l with
  | nil => exact absurd rfl h
  | cons x l =>
    have hstep : firstOccs (x :: l) =
        List.foldl (fun acc a => if a ∈ acc then acc else acc ++ [a]) [x] l := by
      simp [firstOccs]
    rw [hstep]
    have h1 := hmono l [x]
    simp only [List.length_singleton] at h1
    omega

theorem getRankCounts_ne_nil {cards : List Card} (h : cards ≠ []) :
    getRankCounts cards ≠ [] := by
  have hlen : 0 < (getRankCounts cards).length := by
    rw [getRankCounts, sortBy_length, List.length_map]
    exact firstOccs_length_pos (by simpa using h)
  exact List.ne_nil_of_length_pos hlen

theorem isFlush_suitCounts_ne_nil {cards : List Card} (h : isFlush cards = true) :
    getSuitCounts cards ≠ [] := by
  intro hnil
  rw [isFlush] at h
  split_ifs at h
  rw [hnil] at h
  exact Bool.false_ne_true h

theorem mem_if_nil_right {c : Prop} [Decidable c] {l : List PokerHandType}
    {t : PokerHandType} : (t ∈ if c then l else []) ↔ c ∧ t ∈ l := by
  split_ifs with h <;> simp [h]

end Lib

namespace Lib

open PokerHandType in
/-- Per-tag condition under which `detectPokerHands` emits a tag (for a
non-empty hand), phrased through the head accessors. -/
def detectCond (cards : List Card) : PokerHandType → Prop
  | FiveOfAKind => 5 ≤ topRankCount cards
  | FourOfAKind => 4 ≤ topRankCount cards
  | FullHouse => 3 ≤ topRankCount cards ∧ 2 ≤ secondRankCount cards
  | ThreeOfAKind => 3 ≤ topRankCount cards
  | TwoPair => 2 ≤ topRankCount cards ∧ 2 ≤ secondRankCount cards
  | Pair => 2 ≤ topRankCount cards
  | RoyalFlush => isRoyalFlush cards = true
  | StraightFlush => isStraight cards = true ∧ isFlush cards = true
  | Flush => isFlush cards = true
  | Straight => isStraight cards = true
  | FlushFive => 5 ≤ topRankCount cards ∧ isFlush cards = true ∧
      5 ≤ topSuitCount (cards.filter (fun c => decide (c.rank = topRank cards)))
  | FlushHouse => (3 ≤ topRankCount cards ∧ 2 ≤ secondRankCount cards) ∧
      isFlush cards = true ∧
      isFlush (cards.filter (fun c => decide (c.rank = topRank cards) ||
        decide (c.rank = secondRank cards))) = true
  | HighCard => True

theorem mem_detectPokerHands_iff (cards : List Card) (t : PokerHandType) :
    t ∈ detectPokerHands cards ↔ cards ≠ [] ∧ detectCond cards t := by
  by_cases hc : cards = []
  · subst hc
    simp [detectPokerHands]
  · have hlen : ¬(cards.length = 0) := by simpa using hc
    obtain ⟨r0, rrest, h⟩ : ∃ r0 rrest, getRankCounts cards = r0 :: rrest := by
      rcases hx : getRankCounts cards with _ | ⟨a, b⟩
      · exact absurd hx (getRankCounts_ne_nil hc)
      · exact ⟨a, b, rfl⟩
    have htop : topRankCount cards = r0.2 := by rw [topRankCount, h]; rfl
    have htopr : topRank cards = r0.1 := by rw [topRank, h]; rfl
    rw [detectPokerHands, if_neg hlen, h]
    rcases rrest with _ | ⟨r1, rrest2⟩
    · -- single rank in the hand
      have hsec : secondRankCount cards = 0 := by rw [secondRankCount, h]
      rcases hsc : getSuitCounts (cards.filter (fun c => decide (c.rank = r0.1)))
        with _ | ⟨sc0, scs⟩
      · have hts : topSuitCount (cards.filter (fun c => decide (c.rank = r0.1))) = 0 := by
          rw [topSuitCount, hsc]
          rfl
        cases t <;>
          simp [mem_if_nil_right, detectCond, htop, htopr, hsec, hts, hsc, hc, and_assoc]
      · have hts : topSuitCount (cards.filter (fun c => decide (c.rank = r0.1))) = sc0.2 := by
          rw [topSuitCount, hsc]
          rfl
        cases t <;>
          simp [mem_if_nil_right, detectCond, htop, htopr, hsec, hts, hsc, hc, and_assoc]
    · -- at least two ranks
      have hsec : secondRankCount cards = r1.2 := by rw [secondRankCount, h]
      have hsecr : secondRank cards = r1.1 := by rw [secondRank, h]
      rcases hsc : getSuitCounts (cards.filter (fun c => decide (c.rank = r0.1)))
        with _ | ⟨sc0, scs⟩
      · have hts : topSuitCount (cards.filter (fun c => decide (c.rank = r0.1))) = 0 := by
          rw [topSuitCount, hsc]
          rfl
        cases t <;>
          simp [mem_if_nil_right, detectCond, htop, htopr, hsec, hsecr, hts, hsc, hc, and_assoc]
      · have hts : topSuitCount (cards.filter (fun c => decide (c.rank = r0.1))) = sc0.2 := by
          rw [topSuitCount, hsc]
          rfl
        cases t <;>
          simp [mem_if_nil_right, detectCond, htop, htopr, hsec, hsecr, hts, hsc, hc, and_assoc]

end Lib

namespace Lib

theorem isRoyalFlush_eq_true_imp {cards : List Card} (h : isRoyalFlush cards = true) :
    isStraight cards = true ∧ isFlush cards = true := by
  by_contra hn
  rw [isRoyalFlush, if_pos hn] at h
  exact Bool.false_ne_true h

theorem isRoyalFlush_iff (cards : List Card) :
    isRoyalFlush cards = true ↔
      isStraight cards = true ∧ isFlush cards = true ∧
      (cards.filter (fun c => decide (c.suit = flushSuitD cards) &&
        c.rank ∈ royalRanks)).length = 5 := by
  constructor
  · intro h
    have hsf := isRoyalFlush_eq_true_imp h
    refine ⟨hsf.1, hsf.2, ?_⟩
    rw [isRoyalFlush, if_neg (not_not_intro hsf)] at h
    rcases hsc : getSuitCounts cards with _ | ⟨⟨fs, cnt⟩, rest⟩
    · exact absurd hsc (isFlush_suitCounts_ne_nil hsf.2)
    · rw [hsc] at h
      rw [flushSuitD, hsc]
      simpa using h
  · rintro ⟨hs, hf, hcount⟩
    rw [isRoyalFlush, if_neg (not_not_intro ⟨hs, hf⟩)]
    rcases hsc : getSuitCounts cards with _ | ⟨⟨fs, cnt⟩, rest⟩
    · exact absurd hsc (isFlush_suitCounts_ne_nil hf)
    · rw [flushSuitD, hsc] at hcount
      simpa using hcount

end Lib

/-- C9: the tag set returned by `detectPokerHands` is closed under the
hand-implication lattice: Five of a Kind ⇒ Four of a Kind ⇒ Three of a Kind ⇒
Pair; Two Pair ⇒ Pair; Full House ⇒ Three of a Kind ∧ Pair; Straight Flush ⇒
Straight ∧ Flush; Royal Flush ⇒ Straight Flush; Flush Five ⇒ Five of a Kind ∧
Flush; Flush House ⇒ Full House ∧ Flush. -/
theorem detect_closed_under_hand_implications (cards : List Lib.Card) :
    (Lib.PokerHandType.FiveOfAKind ∈ Lib.detectPokerHands cards →
      Lib.PokerHandType.FourOfAKind ∈ Lib.detectPokerHands cards) ∧
    (Lib.PokerHandType.FourOfAKind ∈ Lib.detectPokerHands cards →
      Lib.PokerHandType.ThreeOfAKind ∈ Lib.detectPokerHands cards) ∧
    (Lib.PokerHandType.ThreeOfAKind ∈ Lib.detectPokerHands cards →
      Lib.PokerHandType.Pair ∈ Lib.detectPokerHands cards) ∧
    (Lib.PokerHandType.TwoPair ∈ Lib.detectPokerHands cards →
      Lib.PokerHandType.Pair ∈ Lib.detectPokerHands cards) ∧
    (Lib.PokerHandType.FullHouse ∈ Lib.detectPokerHands cards →
      Lib.PokerHandType.ThreeOfAKind ∈ Lib.detectPokerHands cards ∧
      Lib.PokerHandType.Pair ∈ Lib.detectPokerHands cards) ∧
    (Lib.PokerHandType.StraightFlush ∈ Lib.detectPokerHands cards →
      Lib.PokerHandType.Straight ∈ Lib.detectPokerHands cards ∧
      Lib.PokerHandType.Flush ∈ Lib.detectPokerHands cards) ∧
    (Lib.PokerHandType.RoyalFlush ∈ Lib.detectPokerHands cards →
      Lib.PokerHandType.StraightFlush ∈ Lib.detectPokerHands cards) ∧
    (Lib.PokerHandType.FlushFive ∈ Lib.detectPokerHands cards →
      Lib.PokerHandType.FiveOfAKind ∈ Lib.detectPokerHands cards ∧
      Lib.PokerHandType.Flush ∈ Lib.detectPokerHands cards) ∧
    (Lib.PokerHandType.FlushHouse ∈ Lib.detectPokerHands cards →
      Lib.PokerHandType.FullHouse ∈ Lib.detectPokerHands cards ∧
      Lib.PokerHandType.Flush ∈ Lib.detectPokerHands cards) := by
  simp only [Lib.mem_detectPokerHands_iff, Lib.detectCond]
  refine ⟨?_, ?_, ?_, ?_, ?_, ?_, ?_, ?_, ?_⟩
  · rintro ⟨hc, h⟩; exact ⟨hc, by omega⟩
  · rintro ⟨hc, h⟩; exact ⟨hc, by omega⟩
  · rintro ⟨hc, h⟩; exact ⟨hc, by omega⟩
  · rintro ⟨hc, h⟩; exact ⟨hc, by omega⟩
  · rintro ⟨hc, h⟩; exact ⟨⟨hc, by omega⟩, hc, by omega⟩
  · rintro ⟨hc, h⟩; exact ⟨⟨hc, h.1⟩, hc, h.2⟩
  · rintro ⟨hc, h⟩; exact ⟨hc, Lib.isRoyalFlush_eq_true_imp h⟩
  · rintro ⟨hc, h⟩; exact ⟨⟨hc, by omega⟩, hc, h.2.1⟩
  · rintro ⟨hc, h⟩; exact ⟨⟨hc, h.1⟩, hc, h.2.1⟩

/-- C9 witness: the first implication applied to a concrete five-of-a-kind
hand. -/
theorem detect_closed_under_hand_implications_witness :
    Lib.PokerHandType.FourOfAKind ∈ Lib.detectPokerHands
      [⟨"1", Lib.Rank.RA, Lib.Suit.spades⟩, ⟨"2", Lib.Rank.RA, Lib.Suit.hearts⟩,
       ⟨"3", Lib.Rank.RA, Lib.Suit.diamonds⟩, ⟨"4", Lib.Rank.RA, Lib.Suit.clubs⟩,
       ⟨"5", Lib.Rank.RA, Lib.Suit.spades⟩] :=
  (detect_closed_under_hand_implications
    [⟨"1", Lib.Rank.RA, Lib.Suit.spades⟩, ⟨"2", Lib.Rank.RA, Lib.Suit.hearts⟩,
     ⟨"3", Lib.Rank.RA, Lib.Suit.diamonds⟩, ⟨"4", Lib.Rank.RA, Lib.Suit.clubs⟩,
     ⟨"5", Lib.Rank.RA, Lib.Suit.spades⟩]).1 (by decide)

/-- Hand used for the C5 analysis: 10♠,10♠,J♠,Q♠,K♠,A♠ (duplicate 10♠,
permitted by the deck model). -/
def c5hand : List Lib.Card :=
  [⟨"t1", Lib.Rank.R10, Lib.Suit.spades⟩, ⟨"t2", Lib.Rank.R10, Lib.Suit.spades⟩,
   ⟨"j", Lib.Rank.RJ, Lib.Suit.spades⟩, ⟨"q", Lib.Rank.RQ, Lib.Suit.spades⟩,
   ⟨"k", Lib.Rank.RK, Lib.Suit.spades⟩, ⟨"a", Lib.Rank.RA, Lib.Suit.spades⟩]

/-- C5 counterexample: `c5hand` is a straight flush whose flush suit contains
all five royal ranks, yet — because the code demands *exactly* five
royal-ranked cards of the flush suit — Royal Flush is not detected. -/
theorem royalFlush_rank_inclusion_counterexample :
    (Lib.isStraight c5hand = true ∧ Lib.isFlush c5hand = true ∧
     ∀ r ∈ Lib.royalRanks, ∃ c ∈ c5hand,
       c.suit = Lib.flushSuitD c5hand ∧ c.rank = r) ∧
    Lib.PokerHandType.RoyalFlush ∉ Lib.detectPokerHands c5hand := by
  decide

/-- C5 amended: Royal Flush is detected iff the hand is a straight flush and
*exactly five* cards of the flush suit (the top entry of the suit-count table)
carry royal ranks — rank inclusion alone is not enough when duplicates push
the royal-suited count past five. -/
theorem royalFlush_mem_iff (cards : List Lib.Card) :
    Lib.PokerHandType.RoyalFlush ∈ Lib.detectPokerHands cards ↔
      Lib.isStraight cards = true ∧ Lib.isFlush cards = true ∧
      (cards.filter (fun c => decide (c.suit = Lib.flushSuitD cards) &&
        c.rank ∈ Lib.royalRanks)).length = 5 := by
  rw [Lib.mem_detectPokerHands_iff]
  simp only [Lib.detectCond]
  constructor
  · rintro ⟨_, h⟩
    exact (Lib.isRoyalFlush_iff cards).mp h
  · intro h
    have hne : cards ≠ [] := by
      rintro rfl
      exact absurd h.1 (by decide)
    exact ⟨hne, (Lib.isRoyalFlush_iff cards).mpr h⟩

/-- Hand used for the C6 analysis: five mixed-suit Aces (4♠ + 1♥) and five ♦
Kings. -/
def c6hand : List Lib.Card :=
  [⟨"a1", Lib.Rank.RA, Lib.Suit.spades⟩, ⟨"a2", Lib.Rank.RA, Lib.Suit.spades⟩,
   ⟨"a3", Lib.Rank.RA, Lib.Suit.spades⟩, ⟨"a4", Lib.Rank.RA, Lib.Suit.spades⟩,
   ⟨"a5", Lib.Rank.RA, Lib.Suit.hearts⟩, ⟨"k1", Lib.Rank.RK, Lib.Suit.diamonds⟩,
   ⟨"k2", Lib.Rank.RK, Lib.Suit.diamonds⟩, ⟨"k3", Lib.Rank.RK, Lib.Suit.diamonds⟩,
   ⟨"k4", Lib.Rank.RK, Lib.Suit.diamonds⟩, ⟨"k5", Lib.Rank.RK, Lib.Suit.diamonds⟩]

/-- C6 counterexample: in `c6hand`, rank K has ≥ 5 cards all sharing ♦, so the
claim's existential over every rank holds, but the code inspects only the most
frequent rank (A, by the tie-break toward higher rank value) and does not
detect Flush Five. -/
theorem flushFive_any_rank_counterexample :
    (∃ r : Lib.Rank,
      5 ≤ (c6hand.filter (fun c => decide (c.rank = r))).length ∧
      ∃ s : Lib.Suit,
        5 ≤ ((c6hand.filter (fun c => decide (c.rank = r))).filter
          (fun c => decide (c.suit = s))).length) ∧
    Lib.PokerHandType.FlushFive ∉ Lib.detectPokerHands c6hand := by
  decide

/-- C6 amended: Flush Five is detected iff the *most frequent* rank (ties
broken toward higher rank value) has at least 5 cards, the whole hand is a
flush, and among the cards of that top rank some suit appears at least 5
times; other ranks are never examined. -/
theorem flushFive_mem_iff (cards : List Lib.Card) :
    Lib.PokerHandType.FlushFive ∈ Lib.detectPokerHands cards ↔
      5 ≤ Lib.topRankCount cards ∧ Lib.isFlush cards = true ∧
      5 ≤ Lib.topSuitCount (cards.filter
        (fun c => decide (c.rank = Lib.topRank cards))) := by
  rw [Lib.mem_detectPokerHands_iff]
  simp only [Lib.detectCond]
  constructor
  · rintro ⟨_, h⟩
    exact h
  · intro h
    refine ⟨?_, h⟩
    rintro rfl
    exact absurd h.1 (by decide)

/-- C3 counterexample: with an empty available deck (size 0 < 6), a
6-card discard does **not** raise — the over-draw guard runs first and falls
back to the zero-discard result. -/
theorem discard_six_small_deck_no_error :
    Lib.computeHandProbabilities [] 6 [] =
      Except.ok (Lib.getCurrentHandProbabilities []) := rfl

/-- C3 amended: `computeHandProbabilities(kept, 6, deck)` raises the
validation error whenever `|deck| ≥ 6`; for smaller decks the earlier
`drawCount > |deck|` guard wins and the call falls back to the zero-discard
result instead. -/
theorem discard_over_five_raises (kept deck : List Lib.Card)
    (h : 6 ≤ deck.length) :
    Lib.computeHandProbabilities kept 6 deck =
      Except.error "Cannot discard more than 5 cards in Balatro" := by
  rw [Lib.computeHandProbabilities, if_neg (by omega)]
  rw [Lib.calculateDiscardProbabilities, if_neg (by omega), if_pos (by omega)]

/-- C3 witness: the amended theorem at a concrete 6-card deck. -/
theorem discard_over_five_raises_witness :
    Lib.computeHandProbabilities []
      6 [⟨"1", Lib.Rank.RA, Lib.Suit.spades⟩, ⟨"2", Lib.Rank.RK, Lib.Suit.spades⟩,
         ⟨"3", Lib.Rank.RQ, Lib.Suit.spades⟩, ⟨"4", Lib.Rank.RJ, Lib.Suit.spades⟩,
         ⟨"5", Lib.Rank.R10, Lib.Suit.spades⟩, ⟨"6", Lib.Rank.R9, Lib.Suit.spades⟩] =
      Except.error "Cannot discard more than 5 cards in Balatro" :=
  discard_over_five_raises []
    [⟨"1", Lib.Rank.RA, Lib.Suit.spades⟩, ⟨"2", Lib.Rank.RK, Lib.Suit.spades⟩,
     ⟨"3", Lib.Rank.RQ, Lib.Suit.spades⟩, ⟨"4", Lib.Rank.RJ, Lib.Suit.spades⟩,
     ⟨"5", Lib.Rank.R10, Lib.Suit.spades⟩, ⟨"6", Lib.Rank.R9, Lib.Suit.spades⟩]
    (by simp)

/-- C4: with `discardCount = 0` the result assigns probability 1 to exactly
the tags detected on `keptCards` and 0 to every other tag; and for
`0 < d ≤ 5` with `d > |availableDeck|` the call returns that same
zero-discard result on `keptCards`. -/
theorem zero_discard_and_overdraw_fallback (kept deck : List Lib.Card) :
    Lib.computeHandProbabilities kept 0 deck =
      Except.ok (fun t => if t ∈ Lib.detectPokerHands kept then 1 else 0) ∧
    ∀ d : ℕ, 0 < d → d ≤ 5 → deck.length < d →
      Lib.computeHandProbabilities kept d deck =
        Except.ok (fun t => if t ∈ Lib.detectPokerHands kept then 1 else 0) := by
  constructor
  · rfl
  · intro d h0 h5 hd
    rw [Lib.computeHandProbabilities, if_neg (by omega)]
    rw [Lib.calculateDiscardProbabilities, if_pos hd]
    rfl

/-- C4 witness: the fallback branch at `kept = []`, `deck = []`, `d = 1`. -/
theorem zero_discard_and_overdraw_fallback_witness :
    Lib.computeHandProbabilities [] 1 [] =
      Except.ok (fun t => if t ∈ Lib.detectPokerHands [] then 1 else 0) :=
  (zero_discard_and_overdraw_fallback [] []).2 1 (by norm_num) (by norm_num)
    (by simp)

/-! ## Exact enumeration: `combos` enumerates exactly the size-`d`
index-combinations (it is a permutation of `List.sublistsLen`). -/

namespace Lib

theorem combos_perm_sublistsLen (deck : List Card) :
    ∀ d : ℕ, (combos deck d).Perm (List.sublistsLen d deck) := by
  induction deck with
  | nil =>
    intro d
    cases d with
    | zero => exact List.Perm.refl _
    | succ d => exact List.Perm.refl _
  | cons c rest ih =>
    intro d
    cases d with
    | zero => exact List.Perm.refl _
    | succ d =>
      rw [List.sublistsLen_succ_cons]
      have hstep : combos (c :: rest) (d + 1) =
          (combos rest d).map (fun s => c :: s) ++ combos rest (d + 1) := rfl
      rw [hstep]
      exact (((ih d).map _).append (ih (d + 1))).trans List.perm_append_comm

theorem combos_length (deck : List Card) (d : ℕ) :
    (combos deck d).length = deck.length.choose d :=
  (combos_perm_sublistsLen deck d).length_eq.trans (List.length_sublistsLen d deck)

end Lib

/-- C1: for `1 ≤ d ≤ 5` with `d ≤ |deck|`, the enumerated total equals
`C(|deck|, d)` and `computeHandProbabilities` assigns to every tag exactly
(number of size-`d` index-combinations `S` of the deck whose union with the
kept cards exhibits the tag) divided by `C(|deck|, d)`. -/
theorem computeHandProbabilities_exact_enumeration
    (kept deck : List Lib.Card) (d : ℕ)
    (h1 : 1 ≤ d) (h5 : d ≤ 5) (hd : d ≤ deck.length) :
    (Lib.enumerateCombinations kept d deck).1 = deck.length.choose d ∧
    Lib.computeHandProbabilities kept d deck = Except.ok (fun t =>
      (((List.sublistsLen d deck).countP
          (fun s => decide (t ∈ Lib.detectPokerHands (kept ++ s)))) : ℚ)
        / ((deck.length.choose d : ℕ) : ℚ)) := by
  constructor
  · exact Lib.combos_length deck d
  · rw [Lib.computeHandProbabilities, if_neg (by omega)]
    rw [Lib.calculateDiscardProbabilities, if_neg (by omega), if_neg (by omega)]
    simp only [Lib.enumerateCombinations]
    congr 1
    funext t
    rw [(Lib.combos_perm_sublistsLen deck d).countP_eq, Lib.combos_length]

/-- C1 witness: a one-card deck with a single draw. -/
theorem computeHandProbabilities_exact_enumeration_witness :
    (Lib.enumerateCombinations [] 1 [⟨"AS", Lib.Rank.RA, Lib.Suit.spades⟩]).1 =
      Nat.choose 1 1 ∧
    Lib.computeHandProbabilities [] 1 [⟨"AS", Lib.Rank.RA, Lib.Suit.spades⟩] =
      Except.ok (fun t =>
        (((List.sublistsLen 1 [⟨"AS", Lib.Rank.RA, Lib.Suit.spades⟩]).countP
            (fun s => decide (t ∈ Lib.detectPokerHands ([] ++ s)))) : ℚ)
          / ((Nat.choose 1 1 : ℕ) : ℚ)) :=
  computeHandProbabilities_exact_enumeration [] [⟨"AS", Lib.Rank.RA, Lib.Suit.spades⟩]
    1 (by norm_num) (by norm_num) (by simp)

/-- C7: for a non-empty deck the table has exactly 69 rows: rows 0–3 are the
suit-group rows (hearts, diamonds, clubs, spades), rows 4–16 the rank-group
rows (A, 2, …, K), and rows 17–68 the 52 specific-card rows grouped by suit
then rank; every row's probabilities list has one entry per `N` in
`drawCounts`, in order, equal to `calculateProbability(|deck|, m, N, 1)` with
`m` the count of deck cards matching the row's filter. -/
theorem buildDiscardTable_shape (deck : List String) (ns : List ℤ)
    (hne : deck ≠ []) :
    (Utils.calculateDiscardProbabilities deck ns).length = 69 ∧
    (Utils.calculateDiscardProbabilities deck ns).take 4 =
      Utils.suitsList.map (fun suit =>
        { cardType := Utils.getCardTypeLabel "any" suit, category := "suit"
          probabilities := ns.map fun drawCount =>
            Utils.calculateProbability (deck.length : ℤ)
              (Utils.countMatchingCards deck "any" suit : ℤ) drawCount 1 }) ∧
    ((Utils.calculateDiscardProbabilities deck ns).drop 4).take 13 =
      Utils.ranksList.map (fun rank =>
        { cardType := Utils.getCardTypeLabel rank "any", category := "rank"
          probabilities := ns.map fun drawCount =>
            Utils.calculateProbability (deck.length : ℤ)
              (Utils.countMatchingCards deck rank "any" : ℤ) drawCount 1 }) ∧
    (Utils.calculateDiscardProbabilities deck ns).drop 17 =
      (Utils.suitsList.map (fun suit => Utils.ranksList.map fun rank =>
        { cardType := Utils.getCardTypeLabel rank suit, category := "specific"
          probabilities := ns.map fun drawCount =>
            Utils.calculateProbability (deck.length : ℤ)
              (Utils.countMatchingCards deck rank suit : ℤ) drawCount 1 })).flatten := by
  have hguard : ¬(deck.length = 0) := by simpa using hne
  rw [Utils.calculateDiscardProbabilities, if_neg hguard]
  exact ⟨rfl, rfl, rfl, rfl⟩

/-- C7 witness: the table shape at the one-card deck `["AH"]` with a single
draw count. -/
theorem buildDiscardTable_shape_witness :
    (Utils.calculateDiscardProbabilities ["AH"] [1]).length = 69 ∧
    (Utils.calculateDiscardProbabilities ["AH"] [1]).take 4 =
      Utils.suitsList.map (fun suit =>
        { cardType := Utils.getCardTypeLabel "any" suit, category := "suit"
          probabilities := [(1 : ℤ)].map fun drawCount =>
            Utils.calculateProbability ((["AH"] : List String).length : ℤ)
              (Utils.countMatchingCards ["AH"] "any" suit : ℤ) drawCount 1 }) ∧
    ((Utils.calculateDiscardProbabilities ["AH"] [1]).drop 4).take 13 =
      Utils.ranksList.map (fun rank =>
        { cardType := Utils.getCardTypeLabel rank "any", category := "rank"
          probabilities := [(1 : ℤ)].map fun drawCount =>
            Utils.calculateProbability ((["AH"] : List String).length : ℤ)
              (Utils.countMatchingCards ["AH"] rank "any" : ℤ) drawCount 1 }) ∧
    (Utils.calculateDiscardProbabilities ["AH"] [1]).drop 17 =
      (Utils.suitsList.map (fun suit => Utils.ranksList.map fun rank =>
        { cardType := Utils.getCardTypeLabel rank suit, category := "specific"
          probabilities := [(1 : ℤ)].map fun drawCount =>
            Utils.calculateProbability ((["AH"] : List String).length : ℤ)
              (Utils.countMatchingCards ["AH"] rank suit : ℤ) drawCount 1 })).flatten :=
  buildDiscardTable_shape ["AH"] [1] (by simp)

/-- C8 counterexample: a non-empty deck with an empty `drawCounts` list does
**not** give the empty table — all 69 rows are produced, each with an empty
probabilities list. -/
theorem buildDiscardTable_empty_nvalues_counterexample :
    Utils.calculateDiscardProbabilities ["AH"] [] ≠ [] := by
  intro h
  have h69 : (Utils.calculateDiscardProbabilities ["AH"] []).length = 69 := rfl
  rw [h] at h69
  simp at h69

/-- C8 amended: the table is empty exactly when `remainingDeck` is empty; an
empty `nValues` with a non-empty deck instead yields the usual 69 rows, each
with an empty probabilities list. -/
theorem buildDiscardTable_empty_cases :
    (∀ ns : List ℤ, Utils.calculateDiscardProbabilities [] ns = []) ∧
    (∀ deck : List String, deck ≠ [] →
      (Utils.calculateDiscardProbabilities deck []).length = 69 ∧
      ∀ r ∈ Utils.calculateDiscardProbabilities deck [], r.probabilities = []) := by
  constructor
  · intro ns
    rfl
  · intro deck hne
    have hguard : ¬(deck.length = 0) := by simpa using hne
    rw [Utils.calculateDiscardProbabilities, if_neg hguard]
    refine ⟨rfl, ?_⟩
    intro r hr
    simp only [List.mem_append, List.mem_flatten, List.mem_map] at hr
    rcases hr with (⟨s, _, rfl⟩ | ⟨rk, _, rfl⟩) | ⟨l, ⟨s, _, rfl⟩, hl⟩
    · rfl
    · rfl
    · obtain ⟨rk, _, rfl⟩ := List.mem_map.mp hl
      rfl

/-- C8 witness: the two branches at concrete inputs. -/
theorem buildDiscardTable_empty_cases_witness :
    Utils.calculateDiscardProbabilities [] [1] = [] ∧
    (Utils.calculateDiscardProbabilities ["AH"] []).length = 69 :=
  ⟨buildDiscardTable_empty_cases.1 [1],
   (buildDiscardTable_empty_cases.2 ["AH"] (by simp)).1⟩
